import Mathlib

/-
Verification development for the human-behavior simulation engine of the
job-search automation repository. The mouse subsystem is embedded from
src/automation/EnhancedHumanMouse.js and the typing subsystem from
src/automation/HumanTyping.js; numbers are modelled as rationals, and
non-finite JavaScript values (NaN arising from division by zero) as the
none case of an option type. Every Math.random() draw is an explicit
parameter constrained to the interval [0, 1) in the theorems.
-/

/- Non-finite-aware JavaScript numbers: some q is a finite value, none is a
non-finite value (NaN, or the result of a division by zero; in this code
base a zero denominator only ever occurs with a zero numerator, so the
division result is always NaN). -/
def JSNum := Option ℚ

def jadd : JSNum → JSNum → JSNum
  | some a, some b => some (a + b)
  | _, _ => none

def jsub : JSNum → JSNum → JSNum
  | some a, some b => some (a - b)
  | _, _ => none

def jmul : JSNum → JSNum → JSNum
  | some a, some b => some (a * b)
  | _, _ => none

def jdiv : JSNum → JSNum → JSNum
  | some a, some b => if b = 0 then none else some (a / b)
  | _, _ => none

/- A sampled path point; coordinates may be non-finite. -/
structure JPoint where
  x : JSNum
  y : JSNum

/- Mouse movement and Bezier configuration, the fields of
config mouse.movement and mouse.bezier read by the path generator. -/
structure MouseConfig where
  baseSpeed : ℚ
  acceleration : ℚ
  jitterIntensity : ℚ
  curvature : ℚ
  randomness : ℚ
  controlPointDistance : ℚ
  adaptiveSteps : Bool
  minSteps : ℤ
  maxSteps : ℤ

/- One movement record kept in this.movementHistory
(updateMovementMetrics, EnhancedHumanMouse.js lines 354 to 375). -/
structure Movement where
  startTime : ℚ
  endTime : ℚ
  startX : ℚ
  startY : ℚ
  endX : ℚ
  endY : ℚ
  distance : ℚ

/- The random draws consumed by one call of generateAdvancedBezierPath:
rSteps for the step-count jitter, r1 to r6 for the six draws of
generateSmartControlPoints in source order, and rJitter for the two
per-sample jitter draws (indices 2i and 2i+1 for sample i). -/
structure PathRand where
  rSteps : ℚ
  r1 : ℚ
  r2 : ℚ
  r3 : ℚ
  r4 : ℚ
  r5 : ℚ
  r6 : ℚ
  rJitter : ℕ → ℚ

/- Squared Euclidean distance between start and end, the argument of
Math.sqrt on line 57 of EnhancedHumanMouse.js. The rationals have no
square root, so the embedding passes the exact nonnegative root as an
explicit argument d constrained by 0 le d and d * d = euclidSq. -/
def euclidSq (startX startY endX endY : ℚ) : ℚ :=
  (endX - startX) ^ 2 + (endY - startY) ^ 2

/- Step count of generateAdvancedBezierPath, lines 60 to 66: in adaptive
mode the clamp is applied first and the random jitter, an integer in
[-5, 4], is added afterwards with no re-clamping; in non-adaptive mode
the count is floor(distance / 5) with no clamping at all. -/
def stepCount (cfg : MouseConfig) (distance : ℚ) (r : ℚ) : ℤ :=
  if cfg.adaptiveSteps then
    max cfg.minSteps (min cfg.maxSteps ⌊distance / 5⌋) + (⌊r * 10⌋ - 5)
  else
    ⌊distance / 5⌋

/- calculateHistoryInfluence, lines 140 to 160: average endpoint delta of
the last at most three movement records, scaled by 0.1. -/
def sumDeltas : List Movement → ℚ × ℚ
  | a :: b :: rest =>
    let r := sumDeltas (b :: rest)
    (r.1 + (b.endX - a.endX), r.2 + (b.endY - a.endY))
  | _ => (0, 0)

def calculateHistoryInfluence (hist : List Movement) : ℚ × ℚ :=
  if hist.length < 2 then (0, 0)
  else
    let recent := hist.drop (hist.length - 3)
    let avg := sumDeltas recent
    (avg.1 / recent.length * (1 / 10), avg.2 / recent.length * (1 / 10))

/- calculateSmartRandomness, lines 163 to 176. -/
def calculateSmartRandomness (fatigue distance : ℚ) (cfg : MouseConfig) : ℚ × ℚ :=
  let baseRandomness := distance * cfg.randomness
  let distanceFactor := min 1 (distance / 200)
  let fatigueFactor := 1 + fatigue * (1 / 2)
  (baseRandomness * distanceFactor * fatigueFactor,
   baseRandomness * distanceFactor * fatigueFactor)

/- generateJitter, lines 343 to 345. -/
def generateJitter (intensity r : ℚ) : ℚ :=
  (r - 1 / 2) * intensity * 2

/- generateSmartControlPoints, lines 96 to 137. The perpendicular vector
divides by the distance, so for a zero distance the coordinates of both
control points are non-finite. -/
def generateSmartControlPoints (hist : List Movement) (fatigue : ℚ)
    (startX startY endX endY distance : ℚ) (cfg : MouseConfig)
    (rnd : PathRand) : JPoint × JPoint :=
  let dx := endX - startX
  let dy := endY - startY
  let baseControlDistance := max cfg.controlPointDistance (distance * cfg.curvature)
  let perpX := jdiv (some (-dy)) (some distance)
  let perpY := jdiv (some dx) (some distance)
  let hi := calculateHistoryInfluence hist
  let sr := calculateSmartRandomness fatigue distance cfg
  let cp1Offset := baseControlDistance * (4 / 5 + rnd.r1 * (2 / 5))
  let cp1RandomX := (rnd.r2 - 1 / 2) * sr.1
  let cp1RandomY := (rnd.r3 - 1 / 2) * sr.2
  let cp1 : JPoint :=
    ⟨jadd (jadd (jadd (some (startX + dx * (1 / 4))) (jmul perpX (some cp1Offset)))
        (some cp1RandomX)) (some (hi.1 * (3 / 10))),
     jadd (jadd (jadd (some (startY + dy * (1 / 4))) (jmul perpY (some cp1Offset)))
        (some cp1RandomY)) (some (hi.2 * (3 / 10)))⟩
  let cp2Offset := baseControlDistance * (3 / 5 + rnd.r4 * (3 / 5))
  let cp2RandomX := (rnd.r5 - 1 / 2) * sr.1
  let cp2RandomY := (rnd.r6 - 1 / 2) * sr.2
  let cp2 : JPoint :=
    ⟨jadd (jadd (jadd (some (startX + dx * (3 / 4))) (jmul perpX (some cp2Offset)))
        (some cp2RandomX)) (some (hi.1 * (1 / 2))),
     jadd (jadd (jadd (some (startY + dy * (3 / 4))) (jmul perpY (some cp2Offset)))
        (some cp2RandomY)) (some (hi.2 * (1 / 2)))⟩
  (cp1, cp2)

/- calculateCubicBezierPoint, lines 179 to 190. -/
def calculateCubicBezierPoint (t : JSNum) (p0 p1 p2 p3 : JPoint) : JPoint :=
  let u := jsub (some 1) t
  let tt := jmul t t
  let uu := jmul u u
  let uuu := jmul uu u
  let ttt := jmul tt t
  ⟨jadd (jadd (jadd (jmul uuu p0.x) (jmul (jmul (jmul (some 3) uu) t) p1.x))
      (jmul (jmul (jmul (some 3) u) tt) p2.x)) (jmul ttt p3.x),
   jadd (jadd (jadd (jmul uuu p0.y) (jmul (jmul (jmul (some 3) uu) t) p1.y))
      (jmul (jmul (jmul (some 3) u) tt) p2.y)) (jmul ttt p3.y)⟩

/- generateAdvancedBezierPath, lines 56 to 93. The loop runs for i from 0
to steps inclusive, hence (steps + 1).toNat samples (none when the
jittered step count is negative); the parameter t is i / steps, which is
a division by zero when steps = 0. The distance argument carries the
value of Math.sqrt of the squared endpoint difference, see euclidSq. -/
def generateAdvancedBezierPath (hist : List Movement) (fatigue : ℚ)
    (startX startY endX endY distance : ℚ) (cfg : MouseConfig)
    (rnd : PathRand) : List JPoint :=
  let steps : ℤ := stepCount cfg distance rnd.rSteps
  let cps := generateSmartControlPoints hist fatigue startX startY endX endY distance cfg rnd
  (List.range (steps + 1).toNat).map (fun (i : ℕ) =>
    let t := jdiv (some ((i : ℕ) : ℚ)) (some (steps : ℚ))
    let p := calculateCubicBezierPoint t ⟨some startX, some startY⟩ cps.1 cps.2
      ⟨some endX, some endY⟩
    ⟨jadd p.x (some (generateJitter cfg.jitterIntensity (rnd.rJitter (2 * i)))),
     jadd p.y (some (generateJitter cfg.jitterIntensity (rnd.rJitter (2 * i + 1))))⟩)

/- calculateHumanDelay, lines 211 to 241. The progress argument is
computed by executeMovementPath as i / (length - 1) and is NaN for a
one-point path; a NaN fails both comparisons, selecting the plateau
branch, exactly as in JavaScript. rPlateau is the draw of the plateau
branch and rVar the final variation draw. -/
def calculateHumanDelay (step totalSteps : ℕ) (cfg : MouseConfig)
    (progress : JSNum) (fatigue rPlateau rVar : ℚ) : ℤ :=
  let baseDelay := cfg.baseSpeed
  let speedMultiplier : ℚ :=
    match progress with
    | none => 4 / 5 + rPlateau * (2 / 5)
    | some p =>
      if p < 1 / 5 then 3 / 10 + (p / (1 / 5)) * (7 / 10)
      else if p > 4 / 5 then 1 - ((p - 4 / 5) / (1 / 5)) * (3 / 5)
      else 4 / 5 + rPlateau * (2 / 5)
  let sm := speedMultiplier * cfg.acceleration
  let fatigueMultiplier := 1 + fatigue * (3 / 10)
  let randomVariation := 7 / 10 + rVar * (3 / 5)
  max 1 ⌊baseDelay * sm * fatigueMultiplier * randomVariation⌋

/- updateFatigue, lines 378 to 386 of EnhancedHumanMouse.js. -/
def updateFatigue (fatigue timeSinceLastAction : ℚ) : ℚ :=
  if timeSinceLastAction > 30000 then max 0 (fatigue - 1 / 10)
  else min 1 (fatigue + 1 / 50)

/- updateTypingFatigue, lines 381 to 391 of HumanTyping.js. -/
def updateTypingFatigue (fatigue timeSinceLastType : ℚ) : ℚ :=
  if timeSinceLastType > 60000 then max 0 (fatigue - 1 / 10)
  else min 1 (fatigue + 1 / 200)

/- A mixed sequence of fatigue updates by the two subsystems; the payload
is the elapsed idle time each update observes. -/
inductive FatigueEvent where
  | mouse (idleMs : ℚ)
  | typing (idleMs : ℚ)

def applyFatigueEvent (f : ℚ) : FatigueEvent → ℚ
  | FatigueEvent.mouse idle => updateFatigue f idle
  | FatigueEvent.typing idle => updateTypingFatigue f idle

def runFatigueEvents (f : ℚ) (es : List FatigueEvent) : ℚ :=
  es.foldl applyFatigueEvent f

/- Fatigue state of the whole bot: LinkedInJobBot constructs one
EnhancedHumanMouse and one HumanTyping, and each object carries its own
this.fatigue field initialised to 0; there is no shared cell. -/
structure BotState where
  mouseFatigue : ℚ
  typingFatigue : ℚ

def botInit : BotState := ⟨0, 0⟩

/- updateTypingFatigue called on the typing object writes only the typing
fatigue field. -/
def botUpdateTypingFatigue (s : BotState) (idle : ℚ) : BotState :=
  ⟨s.mouseFatigue, updateTypingFatigue s.typingFatigue idle⟩

/- updateFatigue called on the mouse object writes only the mouse fatigue
field. -/
def botUpdateMouseFatigue (s : BotState) (idle : ℚ) : BotState :=
  ⟨updateFatigue s.mouseFatigue idle, s.typingFatigue⟩

/- The movement delay computation reads the fatigue field of the mouse
object only. -/
def botMouseDelay (s : BotState) (step totalSteps : ℕ) (cfg : MouseConfig)
    (progress : JSNum) (rPlateau rVar : ℚ) : ℤ :=
  calculateHumanDelay step totalSteps cfg progress s.mouseFatigue rPlateau rVar

/- Default mouse configuration from BotConfig.js (mouse.movement and
mouse.bezier defaults). -/
def defaultMouseConfig : MouseConfig :=
  { baseSpeed := 8
    acceleration := 6 / 5
    jitterIntensity := 3 / 2
    curvature := 3 / 10
    randomness := 1 / 5
    controlPointDistance := 50
    adaptiveSteps := true
    minSteps := 10
    maxSteps := 100 }

def defaultMouseConfigFixed : MouseConfig :=
  { defaultMouseConfig with adaptiveSteps := false }

/- A concrete all-zero random source for the path generator. -/
def pathRandZero : PathRand :=
  ⟨0, 0, 0, 0, 0, 0, 0, fun _ => 0⟩

/- A concrete random source drawing one half everywhere. -/
def pathRandHalf : PathRand :=
  ⟨1 / 2, 1 / 2, 1 / 2, 1 / 2, 1 / 2, 1 / 2, 1 / 2, fun _ => 1 / 2⟩

/- ------------------------------------------------------------------ -/
/- Typing subsystem, embedded from HumanTyping.js                      -/
/- ------------------------------------------------------------------ -/

/- Generic association-list lookup, modelling JavaScript object property
lookup on the static tables. -/
def assocLookup {α β : Type} [DecidableEq α] (k : α) : List (α × β) → Option β
  | [] => none
  | (a, b) :: rest => if a = k then some b else assocLookup k rest

/- An inclusive integer range such as correctionDelay or the thinking
pause duration. -/
structure IRange where
  min : ℤ
  max : ℤ

structure ThinkingPausesCfg where
  enabled : Bool
  probability : ℚ
  duration : IRange

/- Typing configuration fields read by the planner (BotConfig typing
section merged with call options). -/
structure TypingConfig where
  wpm : ℚ
  wpmVariation : ℚ
  errorRate : ℚ
  correctionDelay : IRange
  thinkingPauses : ThinkingPausesCfg
  capitalLetterDelay : ℚ
  numberDelay : ℚ
  symbolDelay : ℚ

/- randomDelay(min, max), HumanTyping.js lines 422 to 424:
floor(r * (max - min + 1)) + min. -/
def randomDelay (mn mx : ℤ) (r : ℚ) : ℤ :=
  ⌊r * ((mx : ℚ) - (mn : ℚ) + 1)⌋ + mn

/- Character class tests for the regular expressions of the source,
restricted to the ASCII inputs the bot types. -/
def isUpperAZ (c : Char) : Bool :=
  decide (Char.ofNat 65 ≤ c) && decide (c ≤ Char.ofNat 90)

def isLowerAZ (c : Char) : Bool :=
  decide (Char.ofNat 97 ≤ c) && decide (c ≤ Char.ofNat 122)

def isDigit09 (c : Char) : Bool :=
  decide (Char.ofNat 48 ≤ c) && decide (c ≤ Char.ofNat 57)

/- The symbol character class of calculateCharacterDelay and
calculateTextComplexity, written through character codes. -/
def symbolChars : List Char :=
  [33, 64, 35, 36, 37, 94, 38, 42, 40, 41, 95, 43, 123, 125, 124, 58, 34,
   60, 62, 63, 91, 93, 92, 59, 39, 46, 44, 47].map Char.ofNat

def isSymbolChar (c : Char) : Bool := symbolChars.contains c

/- The word-character class backslash-w of JavaScript: letters, digits
and underscore. -/
def isWordCharJS (c : Char) : Bool :=
  isLowerAZ c || isUpperAZ c || isDigit09 c || c = Char.ofNat 95

/- The whitespace class backslash-s, ASCII part: space, tab, newline,
vertical tab, form feed, carriage return. -/
def isWSChar (c : Char) : Bool :=
  [32, 9, 10, 11, 12, 13].map Char.ofNat |>.contains c

/- Sentence punctuation class of the source: period, exclamation mark,
question mark. -/
def isSentencePunct (c : Char) : Bool :=
  [46, 33, 63].map Char.ofNat |>.contains c

/- The class of shouldMakeTypingError, digits and shifted-digit symbols. -/
def isErrorProneChar (c : Char) : Bool :=
  isDigit09 c || ([33, 64, 35, 36, 37, 94, 38, 42, 40, 41].map Char.ofNat |>.contains c)

/- The class of lowercase vowels and whitespace of shouldMakeTypingError. -/
def isVowelOrSpace (c : Char) : Bool :=
  ([97, 101, 105, 111, 117].map Char.ofNat |>.contains c) || isWSChar c

def nlChar : Char := Char.ofNat 10
def tabChar : Char := Char.ofNat 9
def bsChar : Char := Char.ofNat 8
def spaceChar : Char := Char.ofNat 32

/- initializeCharacterPatterns, lines 333 to 355: per-character
difficulty multipliers. -/
def characterPatterns : List (Char × ℚ) :=
  [('a', 4 / 5), ('s', 4 / 5), ('d', 4 / 5), ('f', 4 / 5), ('g', 4 / 5),
   ('h', 4 / 5), ('j', 4 / 5), ('k', 4 / 5), ('l', 4 / 5),
   ('q', 6 / 5), ('w', 1), ('e', 9 / 10), ('r', 9 / 10), ('t', 9 / 10),
   ('y', 1), ('u', 1), ('i', 1), ('o', 1), ('p', 6 / 5),
   ('z', 13 / 10), ('x', 6 / 5), ('c', 11 / 10), ('v', 11 / 10),
   ('b', 6 / 5), ('n', 11 / 10), ('m', 11 / 10)]

/- initializeCommonErrors, lines 358 to 364. Keys and replacement values
are JavaScript strings, embedded as character lists; generateTypingError
looks the table up with a single-character string, so the word keys can
never match there. -/
def commonErrorsTable : List (List Char × List (List Char)) :=
  [(['a'], [['s'], ['q']]), (['e'], [['w'], ['r']]), (['i'], [['u'], ['o']]),
   (['o'], [['i'], ['p']]), (['u'], [['y'], ['i']]),
   (['t', 'h', 'e'], [['t', 'e', 'h'], ['h', 't', 'e']]),
   (['a', 'n', 'd'], [['a', 'd', 'n'], ['n', 'a', 'd']]),
   (['y', 'o', 'u'], [['y', 'u', 'o'], ['o', 'y', 'u']]),
   (['t', 'h', 'a', 't'], [['t', 'a', 'h', 't'], ['t', 'a', 't', 'h']])]

def commonErrorLookup (c : Char) : Option (List (List Char)) :=
  assocLookup [c] commonErrorsTable

/- The keyboard adjacency table of getAdjacentKey, lines 312 to 322. -/
def keyboardLayout : List (Char × List Char) :=
  [('q', ['w', 'a', 's']), ('w', ['q', 'e', 'a', 's', 'd']),
   ('e', ['w', 'r', 's', 'd', 'f']), ('r', ['e', 't', 'd', 'f', 'g']),
   ('t', ['r', 'y', 'f', 'g', 'h']), ('y', ['t', 'u', 'g', 'h', 'j']),
   ('u', ['y', 'i', 'h', 'j', 'k']), ('i', ['u', 'o', 'j', 'k', 'l']),
   ('o', ['i', 'p', 'k', 'l']), ('p', ['o', 'l']),
   ('a', ['q', 'w', 's', 'z']), ('s', ['a', 'w', 'e', 'd', 'z', 'x']),
   ('d', ['s', 'e', 'r', 'f', 'x', 'c']), ('f', ['d', 'r', 't', 'g', 'c', 'v']),
   ('g', ['f', 't', 'y', 'h', 'v', 'b']), ('h', ['g', 'y', 'u', 'j', 'b', 'n']),
   ('j', ['h', 'u', 'i', 'k', 'n', 'm']), ('k', ['j', 'i', 'o', 'l', 'm']),
   ('l', ['k', 'o', 'p', 'm']), ('z', ['a', 's', 'x']),
   ('x', ['z', 's', 'd', 'c']), ('c', ['x', 'd', 'f', 'v']),
   ('v', ['c', 'f', 'g', 'b']), ('b', ['v', 'g', 'h', 'n']),
   ('n', ['b', 'h', 'j', 'm']), ('m', ['n', 'j', 'k', 'l'])]

/- getAdjacentKey, lines 312 to 330: look the lowercased character up;
if an adjacency list exists and is nonempty, pick a random entry, else
return the character unchanged. -/
def getAdjacentKey (c : Char) (r : ℚ) : Char :=
  match assocLookup c.toLower keyboardLayout with
  | some adjacent =>
    if 0 < adjacent.length then adjacent.getD (⌊r * (adjacent.length : ℚ)⌋).toNat c
    else c
  | none => c

/- generateTypingError, lines 300 to 309: prefer a common-errors table
entry for the character, else fall back to an adjacent key. The result is
a JavaScript string (character list). -/
def generateTypingError (c : Char) (r : ℚ) : List Char :=
  match commonErrorLookup c with
  | some errors => errors.getD (⌊r * (errors.length : ℚ)⌋).toNat []
  | none => [getAdjacentKey c r]

/- isCommonWord, lines 367 to 378. -/
def commonWords : List (List Char) :=
  [['t', 'h', 'e'], ['a', 'n', 'd'], ['o', 'r'], ['b', 'u', 't'], ['i', 'n'],
   ['o', 'n'], ['a', 't'], ['t', 'o'], ['f', 'o', 'r'], ['o', 'f'],
   ['w', 'i', 't', 'h'], ['b', 'y'], ['f', 'r', 'o', 'm'], ['u', 'p'],
   ['a', 'b', 'o', 'u', 't'], ['i', 'n', 't', 'o'],
   ['t', 'h', 'r', 'o', 'u', 'g', 'h'], ['d', 'u', 'r', 'i', 'n', 'g'],
   ['b', 'e', 'f', 'o', 'r', 'e'], ['a', 'f', 't', 'e', 'r'],
   ['a', 'b', 'o', 'v', 'e'], ['b', 'e', 'l', 'o', 'w'],
   ['b', 'e', 't', 'w', 'e', 'e', 'n'], ['a', 'm', 'o', 'n', 'g'], ['a'],
   ['a', 'n'], ['a', 's'], ['a', 'r', 'e'], ['w', 'a', 's'],
   ['w', 'e', 'r', 'e'], ['b', 'e', 'e', 'n'], ['b', 'e'],
   ['h', 'a', 'v', 'e'], ['h', 'a', 's'], ['h', 'a', 'd'], ['d', 'o'],
   ['d', 'o', 'e', 's'], ['d', 'i', 'd'], ['w', 'i', 'l', 'l'],
   ['w', 'o', 'u', 'l', 'd'], ['c', 'o', 'u', 'l', 'd'],
   ['s', 'h', 'o', 'u', 'l', 'd'], ['m', 'a', 'y'],
   ['m', 'i', 'g', 'h', 't'], ['m', 'u', 's', 't'], ['c', 'a', 'n'], ['i'],
   ['y', 'o', 'u'], ['h', 'e'], ['s', 'h', 'e'], ['i', 't'], ['w', 'e'],
   ['t', 'h', 'e', 'y'], ['m', 'e'], ['h', 'i', 'm'], ['h', 'e', 'r'],
   ['u', 's'], ['t', 'h', 'e', 'm']]

def isCommonWordFn (word : List Char) : Bool :=
  commonWords.contains (word.map Char.toLower)

/- The match of the regular expression word-boundary word-chars
end-anchor on a prefix: the maximal trailing run of word characters. -/
def trailingWord (l : List Char) : List Char :=
  (l.reverse.takeWhile isWordCharJS).reverse

/- The context record of getCharacterContext, lines 191 to 211. An empty
JavaScript string for the previous or next character is modelled as none;
every character class test on the empty string is false. -/
structure CharContext where
  character : Char
  prevChar : Option Char
  nextChar : Option Char
  isWordStart : Bool
  isWordEnd : Bool
  afterPunct : Bool
  isCommonWord : Bool
  isComplexWord : Bool
  wordLength : ℕ
deriving DecidableEq

def getCharacterContext (text : List Char) (index : ℕ) : CharContext :=
  let char := text.getD index (Char.ofNat 0)
  let prevChar : Option Char := if 0 < index then text.get? (index - 1) else none
  let nextChar : Option Char := if index < text.length - 1 then text.get? (index + 1) else none
  let currentWord := trailingWord (text.take (index + 1))
  { character := char
    prevChar := prevChar
    nextChar := nextChar
    isWordStart := (match prevChar with | some p => isWSChar p | none => false) && isWordCharJS char
    isWordEnd := isWordCharJS char &&
      (match nextChar with | some n => isWSChar n | none => true)
    afterPunct := match prevChar with | some p => isSentencePunct p | none => false
    isCommonWord := isCommonWordFn currentWord
    isComplexWord := decide (8 < currentWord.length)
    wordLength := currentWord.length }

/- calculateCharacterDelay, lines 137 to 163; rVar is the random
variation draw. -/
def calculateCharacterDelay (c : Char) (baseDelay : ℚ) (cfg : TypingConfig)
    (fatigue rVar : ℚ) : ℚ :=
  let d1 :=
    if c = spaceChar then baseDelay * (1 / 2)
    else if isUpperAZ c then baseDelay * cfg.capitalLetterDelay
    else if isDigit09 c then baseDelay * cfg.numberDelay
    else if isSymbolChar c then baseDelay * cfg.symbolDelay
    else baseDelay
  let d2 :=
    match assocLookup c characterPatterns with
    | some m => d1 * m
    | none => d1
  let d3 := d2 * (7 / 10 + rVar * (3 / 5))
  d3 * (1 + fatigue * (3 / 10))

/- applyContextualAdjustments, lines 166 to 188. -/
def applyContextualAdjustments (delay : ℚ) (ctx : CharContext) : ℚ :=
  let d1 := if ctx.isWordStart || ctx.isWordEnd then delay * (6 / 5) else delay
  let d2 := if ctx.afterPunct then d1 * (7 / 5) else d1
  let d3 := if ctx.isCommonWord then d2 * (4 / 5) else d2
  if ctx.isComplexWord then d3 * (13 / 10) else d3

/- shouldMakeTypingError, lines 281 to 297: a zero (falsy) error rate
short-circuits to false before any draw. -/
def shouldMakeTypingError (c : Char) (cfg : TypingConfig) (fatigue r : ℚ) : Bool :=
  if cfg.errorRate = 0 then false
  else
    let e1 := cfg.errorRate
    let e2 := if isUpperAZ c then e1 * (3 / 2) else e1
    let e3 := if isErrorProneChar c then e2 * 2 else e2
    let e4 := if isVowelOrSpace c then e3 * (1 / 2) else e3
    let e5 := e4 * (1 + fatigue * (1 / 2))
    decide (r < e5)

/- shouldAddThinkingPause, lines 256 to 270: disabled pauses
short-circuit to false before any draw. -/
def shouldAddThinkingPause (text : List Char) (index : ℕ) (cfg : TypingConfig)
    (r : ℚ) : Bool :=
  if !cfg.thinkingPauses.enabled then false
  else
    let ctx := getCharacterContext text index
    let p1 := cfg.thinkingPauses.probability
    let p2 := if ctx.isWordStart then p1 * 2 else p1
    let p3 := if ctx.afterPunct then p2 * 3 else p2
    let p4 := if ctx.isComplexWord then p3 * (3 / 2) else p3
    decide (r < p4)

/- calculateThinkingPauseDuration, lines 273 to 278. -/
def calculateThinkingPauseDuration (cfg : TypingConfig) (r : ℚ) : ℤ :=
  randomDelay cfg.thinkingPauses.duration.min cfg.thinkingPauses.duration.max r

/- One planned character step of the typing pattern, lines 60 to 67. -/
structure CharStep where
  character : Char
  delay : ℤ
  shouldError : Bool
  shouldPause : Bool
  pauseDuration : ℤ
  context : CharContext
deriving DecidableEq

/- The random draws of one generateTypingPattern call, one independent
draw per character position and purpose: rDelay the variation draw of
calculateCharacterDelay, rErr the error-decision draw, rPause the
pause-decision draw, rPauseDur the pause-duration draw. -/
structure TypingRand where
  rDelay : ℕ → ℚ
  rErr : ℕ → ℚ
  rPause : ℕ → ℚ
  rPauseDur : ℕ → ℚ

/- generateTypingPattern, lines 40 to 71: one step per input character;
base delay 60000 / (wpm * 5); the stored delay is floored. -/
def generateTypingPattern (text : List Char) (wpm : ℚ) (cfg : TypingConfig)
    (fatigue : ℚ) (rnd : TypingRand) : List CharStep :=
  let baseDelay := 60000 / (wpm * 5)
  (List.range text.length).map (fun (i : ℕ) =>
    let char := text.getD i (Char.ofNat 0)
    let context := getCharacterContext text i
    let d1 := calculateCharacterDelay char baseDelay cfg fatigue (rnd.rDelay i)
    let d2 := applyContextualAdjustments d1 context
    let shouldError := shouldMakeTypingError char cfg fatigue (rnd.rErr i)
    let shouldPause := shouldAddThinkingPause text i cfg (rnd.rPause i)
    { character := char
      delay := ⌊d2⌋
      shouldError := shouldError
      shouldPause := shouldPause
      pauseDuration :=
        if shouldPause then calculateThinkingPauseDuration cfg (rnd.rPauseDur i) else 0
      context := context })

/- Primitive input events issued while executing a pattern: a string sent
through robot.typeString, the special key taps of typeCharacter and the
backspace of the correction, and a sleep. -/
inductive TEvent where
  | emitStr (s : List Char)
  | tapEnter
  | tapTab
  | tapBackspace
  | wait (ms : ℚ)
deriving DecidableEq

def isKeyEvent : TEvent → Bool
  | TEvent.wait _ => false
  | _ => true

def keyEvents (tr : List TEvent) : List TEvent := tr.filter isKeyEvent

/- typeCharacter, lines 97 to 112, generalised to the one-or-more
character strings it receives (the substitute of an error step is a
JavaScript string): tap the special key for a newline, tab or backspace
string, else send the string, then sleep the delay when positive. -/
def typeCharacterS (s : List Char) (delay : ℚ) : List TEvent :=
  (if s = [nlChar] then [TEvent.tapEnter]
   else if s = [tabChar] then [TEvent.tapTab]
   else if s = [bsChar] then [TEvent.tapBackspace]
   else [TEvent.emitStr s]) ++
  (if 0 < delay then [TEvent.wait delay] else [])

def typeCharacter (c : Char) (delay : ℚ) : List TEvent :=
  typeCharacterS [c] delay

/- executeTypingError, lines 115 to 134: type the wrong character at the
planned delay, sleep the reaction delay drawn from correctionDelay, tap
backspace, sleep a 50 to 150 ms draw, then type the correct character at
0.8 times the planned delay. rPick is the substitute-selection draw,
rReact the reaction-delay draw, rBs the post-backspace draw. -/
def executeTypingError (item : CharStep) (cfg : TypingConfig)
    (rPick rReact rBs : ℚ) : List TEvent :=
  let errorChar := generateTypingError item.character rPick
  typeCharacterS errorChar (item.delay : ℚ) ++
  [TEvent.wait ((randomDelay cfg.correctionDelay.min cfg.correctionDelay.max rReact : ℤ) : ℚ)] ++
  [TEvent.tapBackspace] ++
  [TEvent.wait ((randomDelay 50 150 rBs : ℤ) : ℚ)] ++
  typeCharacter item.character ((item.delay : ℚ) * (4 / 5))

/- Default typing configuration of BotConfig.js. -/
def defaultTypingConfig : TypingConfig :=
  { wpm := 45
    wpmVariation := 10
    errorRate := 1 / 50
    correctionDelay := ⟨500, 1500⟩
    thinkingPauses := ⟨true, 1 / 20, ⟨500, 2000⟩⟩
    capitalLetterDelay := 13 / 10
    numberDelay := 6 / 5
    symbolDelay := 3 / 2 }

/- The configuration of the claimed scenario: errorRate 0 and thinking
pauses disabled. -/
def quietTypingConfig : TypingConfig :=
  { defaultTypingConfig with
    errorRate := 0
    thinkingPauses := ⟨false, 1 / 20, ⟨500, 2000⟩⟩ }

def typingRandZero : TypingRand :=
  ⟨fun _ => 0, fun _ => 0, fun _ => 0, fun _ => 0⟩

/- The thirteen characters of the scenario text. -/
def helloChars : List Char :=
  ['H', 'e', 'l', 'l', 'o', ',', ' ', 'W', 'o', 'r', 'l', 'd', '!']

/- A context record with every flag clear, for concrete sample steps. -/
def blankCtx (c : Char) : CharContext :=
  ⟨c, none, none, false, false, false, false, false, 0⟩

/- A concrete planned step marked as an error, for witnesses. -/
def sampleErrorStep : CharStep :=
  ⟨'a', 100, true, false, 0, blankCtx 'a'⟩

/- A concrete error step on a digit, which has neither a common-errors
entry nor a keyboard adjacency. -/
def digitStep : CharStep :=
  ⟨'5', 120, true, false, 0, blankCtx '5'⟩

/- ------------------------------------------------------------------ -/
/- Theorems                                                            -/
/- ------------------------------------------------------------------ -/

theorem jadd_none_left (b : JSNum) : jadd none b = none := rfl

theorem jadd_none_right (a : JSNum) : jadd a none = none := by
  cases a <;> rfl

theorem jmul_none_left (b : JSNum) : jmul none b = none := rfl

theorem jmul_none_right (a : JSNum) : jmul a none = none := by
  cases a <;> rfl

theorem jsub_none_right (a : JSNum) : jsub a none = none := by
  cases a <;> rfl

theorem generateAdvancedBezierPath_length (hist : List Movement) (fatigue : ℚ)
    (startX startY endX endY distance : ℚ) (cfg : MouseConfig) (rnd : PathRand) :
    (generateAdvancedBezierPath hist fatigue startX startY endX endY distance cfg rnd).length
      = (stepCount cfg distance rnd.rSteps + 1).toNat := by
  simp [generateAdvancedBezierPath]

theorem stepCount_adaptive_bounds (cfg : MouseConfig) (d r : ℚ)
    (hadapt : cfg.adaptiveSteps = true)
    (hms : cfg.minSteps ≤ cfg.maxSteps)
    (hr0 : 0 ≤ r) (hr1 : r < 1) :
    cfg.minSteps - 5 ≤ stepCount cfg d r ∧ stepCount cfg d r ≤ cfg.maxSteps + 4 := by
  have hj0 : (0 : ℤ) ≤ ⌊r * 10⌋ := Int.floor_nonneg.mpr (by positivity)
  have hj1 : ⌊r * 10⌋ < 10 := by
    rw [Int.floor_lt]
    push_cast
    nlinarith
  have hc1 : cfg.minSteps ≤ max cfg.minSteps (min cfg.maxSteps ⌊d / 5⌋) :=
    le_max_left _ _
  have hc2 : max cfg.minSteps (min cfg.maxSteps ⌊d / 5⌋) ≤ cfg.maxSteps :=
    max_le hms (min_le_left _ _)
  rw [stepCount, if_pos hadapt]
  omega

/-- Claim C1, counterexample: with the default configuration (adaptive,
minSteps 10, maxSteps 100), start (0,0), end (3,4) (distance 5) and a
random source drawing 0, the clamped count 10 receives jitter -5, so the
path has 6 points, outside the claimed range [11, 101]. -/
theorem c1_counterexample :
    0 ≤ (5 : ℚ) ∧ (5 : ℚ) * 5 = euclidSq 0 0 3 4 ∧
    ¬ (10 + 1 ≤ (generateAdvancedBezierPath [] 0 0 0 3 4 5 defaultMouseConfig pathRandZero).length ∧
       (generateAdvancedBezierPath [] 0 0 0 3 4 5 defaultMouseConfig pathRandZero).length ≤ 100 + 1) := by
  refine ⟨by norm_num, by norm_num [euclidSq], ?_⟩
  rw [generateAdvancedBezierPath_length]
  have h : stepCount defaultMouseConfig 5 pathRandZero.rSteps = 5 := by
    norm_num [stepCount, defaultMouseConfig, pathRandZero]
  rw [h]
  norm_num

/-- Claim C1, amended: in adaptive mode the step count is clamped to
[minSteps, maxSteps] before the random jitter, and the jitter, an integer
in [-5, 4], is then added with no re-clamping, so (when 5 le minSteps, so
the jittered count stays nonnegative) the returned path has between
minSteps - 4 and maxSteps + 5 points; in non-adaptive mode no clamping
happens at all and the path has floor(distance / 5) + 1 points. -/
theorem c1_amended_path_length_bounds (hist : List Movement)
    (fatigue startX startY endX endY d : ℚ) (cfg : MouseConfig) (rnd : PathRand)
    (hms : cfg.minSteps ≤ cfg.maxSteps) (h5 : 5 ≤ cfg.minSteps)
    (hr0 : 0 ≤ rnd.rSteps) (hr1 : rnd.rSteps < 1) (hd : 0 ≤ d) :
    (cfg.adaptiveSteps = true →
      cfg.minSteps - 4 ≤
        ((generateAdvancedBezierPath hist fatigue startX startY endX endY d cfg rnd).length : ℤ) ∧
      ((generateAdvancedBezierPath hist fatigue startX startY endX endY d cfg rnd).length : ℤ) ≤
        cfg.maxSteps + 5) ∧
    (cfg.adaptiveSteps = false →
      ((generateAdvancedBezierPath hist fatigue startX startY endX endY d cfg rnd).length : ℤ) =
        ⌊d / 5⌋ + 1) := by
  rw [generateAdvancedBezierPath_length]
  constructor
  · intro hadapt
    obtain ⟨hlo, hhi⟩ := stepCount_adaptive_bounds cfg d rnd.rSteps hadapt hms hr0 hr1
    have hnn : 0 ≤ stepCount cfg d rnd.rSteps + 1 := by omega
    rw [Int.toNat_of_nonneg hnn]
    omega
  · intro hfixed
    have hs : stepCount cfg d rnd.rSteps = ⌊d / 5⌋ := by
      rw [stepCount, if_neg (by simp [hfixed])]
    have hnn : 0 ≤ stepCount cfg d rnd.rSteps + 1 := by
      rw [hs]
      have : (0 : ℤ) ≤ ⌊d / 5⌋ := Int.floor_nonneg.mpr (by positivity)
      omega
    rw [Int.toNat_of_nonneg hnn, hs]

theorem c1_witness :
    defaultMouseConfig.minSteps ≤ defaultMouseConfig.maxSteps ∧
    (5 : ℤ) ≤ defaultMouseConfig.minSteps ∧
    (0 : ℚ) ≤ pathRandZero.rSteps ∧ pathRandZero.rSteps < 1 ∧ (0 : ℚ) ≤ 500 ∧
    ((defaultMouseConfig.adaptiveSteps = true →
      defaultMouseConfig.minSteps - 4 ≤
        ((generateAdvancedBezierPath [] 0 0 0 300 400 500 defaultMouseConfig pathRandZero).length : ℤ) ∧
      ((generateAdvancedBezierPath [] 0 0 0 300 400 500 defaultMouseConfig pathRandZero).length : ℤ) ≤
        defaultMouseConfig.maxSteps + 5) ∧
    (defaultMouseConfig.adaptiveSteps = false →
      ((generateAdvancedBezierPath [] 0 0 0 300 400 500 defaultMouseConfig pathRandZero).length : ℤ) =
        ⌊(500 : ℚ) / 5⌋ + 1)) :=
  ⟨by norm_num [defaultMouseConfig], by norm_num [defaultMouseConfig],
   le_refl 0, by norm_num [pathRandZero], by norm_num,
   c1_amended_path_length_bounds [] 0 0 0 300 400 500 defaultMouseConfig pathRandZero
     (by norm_num [defaultMouseConfig]) (by norm_num [defaultMouseConfig])
     (le_refl 0) (by norm_num [pathRandZero]) (by norm_num)⟩

/-- Claim C2, counterexample: with the default (adaptive) configuration
and a random source drawing one half, the path from a point to itself has
11 points, not exactly one: there is no degenerate-case branch for a zero
distance. -/
theorem c2_counterexample :
    (generateAdvancedBezierPath [] 0 0 0 0 0 0 defaultMouseConfig pathRandHalf).length ≠ 1 := by
  rw [generateAdvancedBezierPath_length]
  have h : stepCount defaultMouseConfig 0 pathRandHalf.rSteps = 10 := by
    norm_num [stepCount, defaultMouseConfig, pathRandHalf]
  rw [h]
  decide

/-- Claim C2, amended: for a zero distance the generator performs the
control-point math anyway, dividing by the zero distance, so every
coordinate it returns is non-finite (NaN); in non-adaptive mode the
returned path has exactly one point, whose coordinates are both NaN, and
path points carry no delay at all (delays are computed at execution time
and floored at 1, not 0). -/
theorem c2_amended_degenerate_nan (hist : List Movement) (fatigue px py : ℚ)
    (cfg : MouseConfig) (rnd : PathRand) (hfixed : cfg.adaptiveSteps = false) :
    generateAdvancedBezierPath hist fatigue px py px py 0 cfg rnd = [⟨none, none⟩] := by
  simp [generateAdvancedBezierPath, stepCount, hfixed, calculateCubicBezierPoint,
    jdiv, jadd_none_left, jadd_none_right, jmul_none_left, jmul_none_right,
    jsub_none_right]

theorem c2_witness :
    defaultMouseConfigFixed.adaptiveSteps = false ∧
    generateAdvancedBezierPath [] 0 7 9 7 9 0 defaultMouseConfigFixed pathRandHalf = [⟨none, none⟩] :=
  ⟨rfl, c2_amended_degenerate_nan [] 0 7 9 defaultMouseConfigFixed pathRandHalf rfl⟩

theorem applyFatigueEvent_bounds (f : ℚ) (e : FatigueEvent)
    (h0 : 0 ≤ f) (h1 : f ≤ 1) :
    0 ≤ applyFatigueEvent f e ∧ applyFatigueEvent f e ≤ 1 := by
  cases e with
  | mouse idle =>
    simp only [applyFatigueEvent, updateFatigue]
    split
    · exact ⟨le_max_left _ _, max_le (by norm_num) (by linarith)⟩
    · exact ⟨le_min (by norm_num) (by linarith), min_le_left _ _⟩
  | typing idle =>
    simp only [applyFatigueEvent, updateTypingFatigue]
    split
    · exact ⟨le_max_left _ _, max_le (by norm_num) (by linarith)⟩
    · exact ⟨le_min (by norm_num) (by linarith), min_le_left _ _⟩

/-- Claim C3: starting anywhere in [0, 1], the fatigue value stays in
[0, 1] after any sequence of mouse and typing fatigue updates, however
idle times and update kinds alternate: every decrement is floored at 0
and every increment is capped at 1. -/
theorem c3_fatigue_unit_interval (f : ℚ) (es : List FatigueEvent)
    (h0 : 0 ≤ f) (h1 : f ≤ 1) :
    0 ≤ runFatigueEvents f es ∧ runFatigueEvents f es ≤ 1 := by
  induction es generalizing f with
  | nil => exact ⟨h0, h1⟩
  | cons e rest ih =>
    have h := applyFatigueEvent_bounds f e h0 h1
    have := ih (applyFatigueEvent f e) h.1 h.2
    simpa [runFatigueEvents, List.foldl_cons] using this

theorem c3_witness :
    (0 : ℚ) ≤ 1 / 2 ∧ (1 / 2 : ℚ) ≤ 1 ∧
    (0 ≤ runFatigueEvents (1 / 2)
        [FatigueEvent.typing 0, FatigueEvent.mouse 100000,
         FatigueEvent.mouse 0, FatigueEvent.typing 70000] ∧
     runFatigueEvents (1 / 2)
        [FatigueEvent.typing 0, FatigueEvent.mouse 100000,
         FatigueEvent.mouse 0, FatigueEvent.typing 70000] ≤ 1) :=
  ⟨by norm_num, by norm_num,
   c3_fatigue_unit_interval (1 / 2)
     [FatigueEvent.typing 0, FatigueEvent.mouse 100000,
      FatigueEvent.mouse 0, FatigueEvent.typing 70000]
     (by norm_num) (by norm_num)⟩

/-- Claim C6: the per-step movement delay computed by calculateHumanDelay
is at least 1 millisecond for every step index, total step count,
configuration, fatigue value, progress value (finite or NaN) and random
draws, because the result is the maximum of 1 and the floored product. -/
theorem c6_step_delay_at_least_one (step totalSteps : ℕ) (cfg : MouseConfig)
    (progress : JSNum) (fatigue rPlateau rVar : ℚ) :
    1 ≤ calculateHumanDelay step totalSteps cfg progress fatigue rPlateau rVar := by
  unfold calculateHumanDelay
  exact le_max_left _ _

/-- Claim C8, counterexample: starting from the freshly constructed bot
state (both fatigue fields 0), one typing fatigue update with idle time 0
leaves the typing fatigue at 1/200 but the mouse fatigue at 0: the two
subsystems do not read and write one shared fatigue value. -/
theorem c8_counterexample :
    (botUpdateTypingFatigue botInit 0).typingFatigue ≠
      (botUpdateTypingFatigue botInit 0).mouseFatigue := by
  have h : updateTypingFatigue 0 0 = 1 / 200 := by
    rw [updateTypingFatigue, if_neg (by norm_num), min_eq_right (by norm_num)]
    norm_num
  simp only [botUpdateTypingFatigue, botInit, h]
  norm_num

/-- Claim C8, amended: mouse and typing each own an independent fatigue
value with their own constants; a typing fatigue update leaves the mouse
fatigue, and hence every movement delay computation, unchanged, and a
mouse fatigue update leaves the typing fatigue unchanged. -/
theorem c8_amended_fatigue_independent (s : BotState) (idleT idleM : ℚ)
    (step totalSteps : ℕ) (cfg : MouseConfig) (progress : JSNum) (rP rV : ℚ) :
    (botUpdateTypingFatigue s idleT).mouseFatigue = s.mouseFatigue ∧
    (botUpdateMouseFatigue s idleM).typingFatigue = s.typingFatigue ∧
    botMouseDelay (botUpdateTypingFatigue s idleT) step totalSteps cfg progress rP rV =
      botMouseDelay s step totalSteps cfg progress rP rV :=
  ⟨rfl, rfl, rfl⟩

/-- Claim C4: generateTypingPattern returns one step per input character
for every text (including the empty one), whatever the configuration,
fatigue and random draws: the pattern length equals the text length. -/
theorem c4_pattern_length (text : List Char) (wpm : ℚ) (cfg : TypingConfig)
    (fatigue : ℚ) (rnd : TypingRand) :
    (generateTypingPattern text wpm cfg fatigue rnd).length = text.length := by
  simp [generateTypingPattern]

/-- Claim C9: with errorRate 0 and thinking pauses disabled, the pattern
has one step per character, no step is marked as an error and no step
carries a pause (pause duration 0); applied to the 13-character scenario
text this gives a 13-step pattern (see the witness). -/
theorem c9_quiet_pattern (text : List Char) (wpm fatigue : ℚ)
    (cfg : TypingConfig) (rnd : TypingRand)
    (he : cfg.errorRate = 0) (hp : cfg.thinkingPauses.enabled = false) :
    (generateTypingPattern text wpm cfg fatigue rnd).length = text.length ∧
    ∀ s ∈ generateTypingPattern text wpm cfg fatigue rnd,
      s.shouldError = false ∧ s.shouldPause = false ∧ s.pauseDuration = 0 := by
  constructor
  · simp [generateTypingPattern]
  · intro s hs
    simp only [generateTypingPattern, List.mem_map, List.mem_range] at hs
    obtain ⟨i, hi, rfl⟩ := hs
    refine ⟨by simp [shouldMakeTypingError, he], ?_, ?_⟩
    · simp [shouldAddThinkingPause, hp]
    · simp [shouldAddThinkingPause, hp]

theorem c9_witness :
    quietTypingConfig.errorRate = 0 ∧
    quietTypingConfig.thinkingPauses.enabled = false ∧
    ((generateTypingPattern helloChars 45 quietTypingConfig 0 typingRandZero).length = 13 ∧
     ∀ s ∈ generateTypingPattern helloChars 45 quietTypingConfig 0 typingRandZero,
       s.shouldError = false ∧ s.shouldPause = false ∧ s.pauseDuration = 0) :=
  ⟨rfl, rfl, c9_quiet_pattern helloChars 45 0 quietTypingConfig typingRandZero rfl rfl⟩

theorem assocLookup_mem {α β : Type} [DecidableEq α] (k : α) (l : List (α × β)) (b : β)
    (h : assocLookup k l = some b) : ∃ a, (a, b) ∈ l := by
  induction l with
  | nil => simp [assocLookup] at h
  | cons p rest ih =>
    obtain ⟨a, v⟩ := p
    rw [assocLookup] at h
    by_cases hk : a = k
    · rw [if_pos hk] at h
      injection h with hv
      exact ⟨a, by simp [hv]⟩
    · rw [if_neg hk] at h
      obtain ⟨a2, ha2⟩ := ih h
      exact ⟨a2, by simp [ha2]⟩

theorem characterPatterns_value_nonneg (c : Char) (m : ℚ)
    (h : assocLookup c characterPatterns = some m) : 0 ≤ m := by
  obtain ⟨a, ha⟩ := assocLookup_mem c characterPatterns m h
  fin_cases ha <;> norm_num

theorem calculateCharacterDelay_nonneg (c : Char) (baseDelay : ℚ)
    (cfg : TypingConfig) (fatigue rVar : ℚ)
    (hb : 0 ≤ baseDelay) (hf : 0 ≤ fatigue)
    (hcap : 0 ≤ cfg.capitalLetterDelay) (hnum : 0 ≤ cfg.numberDelay)
    (hsym : 0 ≤ cfg.symbolDelay) (hr : 0 ≤ rVar) :
    0 ≤ calculateCharacterDelay c baseDelay cfg fatigue rVar := by
  rw [calculateCharacterDelay]
  have h1 : (0 : ℚ) ≤ 7 / 10 + rVar * (3 / 5) :=
    add_nonneg (by norm_num) (mul_nonneg hr (by norm_num))
  have h2 : (0 : ℚ) ≤ 1 + fatigue * (3 / 10) :=
    add_nonneg zero_le_one (mul_nonneg hf (by norm_num))
  have hd1 : (0 : ℚ) ≤
      (if c = spaceChar then baseDelay * (1 / 2)
       else if isUpperAZ c then baseDelay * cfg.capitalLetterDelay
       else if isDigit09 c then baseDelay * cfg.numberDelay
       else if isSymbolChar c then baseDelay * cfg.symbolDelay
       else baseDelay) := by
    split_ifs
    · exact mul_nonneg hb (by norm_num)
    · exact mul_nonneg hb hcap
    · exact mul_nonneg hb hnum
    · exact mul_nonneg hb hsym
    · exact hb
  cases hlook : assocLookup c characterPatterns with
  | none => simp only [hlook]; exact mul_nonneg (mul_nonneg hd1 h1) h2
  | some m =>
    simp only [hlook]
    exact mul_nonneg (mul_nonneg (mul_nonneg hd1 (characterPatterns_value_nonneg c m hlook)) h1) h2

theorem applyContextualAdjustments_nonneg (delay : ℚ) (ctx : CharContext)
    (hd : 0 ≤ delay) : 0 ≤ applyContextualAdjustments delay ctx := by
  rw [applyContextualAdjustments]
  split_ifs <;> linarith

/-- Claim C7, counterexample: the stored typing delays are only floored
with Math.floor, never clamped to 1; at wpm 12000 the base delay is 1 ms,
a space halves it, and the random variation draw 0 multiplies it by 0.7,
so the floored delay of the single step is 0, below the claimed 1 ms. -/
theorem c7_counterexample :
    ¬ ∀ s ∈ generateTypingPattern [spaceChar] 12000 defaultTypingConfig 0 typingRandZero,
        (1 : ℤ) ≤ s.delay := by
  intro h
  have key : (generateTypingPattern [spaceChar] 12000 defaultTypingConfig 0
      typingRandZero).map CharStep.delay = [0] := by
    have hdel : applyContextualAdjustments
        (calculateCharacterDelay (([spaceChar] : List Char).getD 0 (Char.ofNat 0))
          (60000 / ((12000 : ℚ) * 5)) defaultTypingConfig 0 (typingRandZero.rDelay 0))
        (getCharacterContext [spaceChar] 0) = 7 / 20 := by
      simp +decide only [calculateCharacterDelay, applyContextualAdjustments,
        getCharacterContext, trailingWord, isCommonWordFn, commonWords, isWordCharJS,
        isLowerAZ, isUpperAZ, isDigit09, isWSChar, isSymbolChar, symbolChars,
        assocLookup, characterPatterns, defaultTypingConfig, typingRandZero, spaceChar,
        List.takeWhile, List.getD, List.map_cons, List.map_nil, List.reverse_cons,
        List.reverse_nil, List.nil_append, List.contains_cons, List.contains_nil,
        List.take, List.length_cons, List.length_nil]
      norm_num
    simp only [generateTypingPattern, List.length_singleton, List.range_succ,
      List.range_zero, List.nil_append, List.map_cons, List.map_nil]
    rw [hdel]
    have hfl : (⌊(7 / 20 : ℚ)⌋ : ℤ) = 0 := by
      rw [Int.floor_eq_iff]
      norm_num
    rw [hfl]
  have h2 : ∀ d ∈ (generateTypingPattern [spaceChar] 12000 defaultTypingConfig 0
      typingRandZero).map CharStep.delay, (1 : ℤ) ≤ d := by
    intro d hd
    obtain ⟨s, hs, rfl⟩ := List.mem_map.mp hd
    exact h s hs
  rw [key] at h2
  have h3 := h2 0 (by simp)
  omega

/-- Claim C7, amended: the movement delays are floored at 1 ms (see the
claim about calculateHumanDelay), but the typing pattern delays are only
Math.floor of a product of nonnegative factors, so they are guaranteed
nonnegative, not at least 1: for positive wpm, nonnegative fatigue, class
multipliers and draws, every stored delay satisfies 0 le delay, and a
zero delay is reachable at a large enough wpm. -/
theorem c7_amended_delays_nonneg (text : List Char) (wpm : ℚ) (cfg : TypingConfig)
    (fatigue : ℚ) (rnd : TypingRand)
    (hwpm : 0 < wpm) (hf : 0 ≤ fatigue)
    (hcap : 0 ≤ cfg.capitalLetterDelay) (hnum : 0 ≤ cfg.numberDelay)
    (hsym : 0 ≤ cfg.symbolDelay) (hr : ∀ i, 0 ≤ rnd.rDelay i) :
    ∀ s ∈ generateTypingPattern text wpm cfg fatigue rnd, 0 ≤ s.delay := by
  intro s hs
  simp only [generateTypingPattern, List.mem_map, List.mem_range] at hs
  obtain ⟨i, hi, rfl⟩ := hs
  have hb : (0 : ℚ) ≤ 60000 / (wpm * 5) := by positivity
  exact Int.floor_nonneg.mpr
    (applyContextualAdjustments_nonneg _ _
      (calculateCharacterDelay_nonneg _ _ cfg fatigue _ hb hf hcap hnum hsym (hr i)))

theorem c7_witness :
    (0 : ℚ) < 45 ∧ (0 : ℚ) ≤ 0 ∧
    (0 : ℚ) ≤ defaultTypingConfig.capitalLetterDelay ∧
    (0 : ℚ) ≤ defaultTypingConfig.numberDelay ∧
    (0 : ℚ) ≤ defaultTypingConfig.symbolDelay ∧
    (∀ i, (0 : ℚ) ≤ typingRandZero.rDelay i) ∧
    ∀ s ∈ generateTypingPattern helloChars 45 defaultTypingConfig 0 typingRandZero,
      0 ≤ s.delay :=
  ⟨by norm_num, le_refl 0, by norm_num [defaultTypingConfig],
   by norm_num [defaultTypingConfig], by norm_num [defaultTypingConfig],
   fun _ => le_refl 0,
   c7_amended_delays_nonneg helloChars 45 defaultTypingConfig 0 typingRandZero
     (by norm_num) (le_refl 0) (by norm_num [defaultTypingConfig])
     (by norm_num [defaultTypingConfig]) (by norm_num [defaultTypingConfig])
     (fun _ => le_refl 0)⟩

theorem randomDelay_bounds (mn mx : ℤ) (r : ℚ) (hle : mn ≤ mx)
    (h0 : 0 ≤ r) (h1 : r < 1) :
    mn ≤ randomDelay mn mx r ∧ randomDelay mn mx r ≤ mx := by
  have hcast : (mn : ℚ) ≤ (mx : ℚ) := Int.cast_le.mpr hle
  have hLpos : (0 : ℚ) < (mx : ℚ) - mn + 1 := by linarith
  have hfl0 : 0 ≤ ⌊r * ((mx : ℚ) - mn + 1)⌋ :=
    Int.floor_nonneg.mpr (mul_nonneg h0 (le_of_lt hLpos))
  have hfl1 : ⌊r * ((mx : ℚ) - mn + 1)⌋ < mx - mn + 1 := by
    rw [Int.floor_lt]
    push_cast
    nlinarith
  rw [randomDelay]
  omega

theorem pickEntry_mem {α : Type} (l : List α) (d : α) (r : ℚ)
    (h0 : 0 ≤ r) (h1 : r < 1) (hne : l ≠ []) :
    l.getD (⌊r * (l.length : ℚ)⌋).toNat d ∈ l := by
  have hlen : 0 < l.length := List.length_pos.mpr hne
  have hlenq : (0 : ℚ) < (l.length : ℚ) := by exact_mod_cast hlen
  have hfl0 : 0 ≤ ⌊r * (l.length : ℚ)⌋ :=
    Int.floor_nonneg.mpr (mul_nonneg h0 (le_of_lt hlenq))
  have hfl1 : ⌊r * (l.length : ℚ)⌋ < (l.length : ℤ) := by
    rw [Int.floor_lt]
    push_cast
    nlinarith
  have hidx : (⌊r * (l.length : ℚ)⌋).toNat < l.length := by omega
  rw [List.getD_eq_getElem l d hidx]
  exact List.getElem_mem hidx

theorem keyboardLayout_no_special :
    ∀ p ∈ keyboardLayout, ∀ a ∈ p.2,
      a ≠ nlChar ∧ a ≠ tabChar ∧ a ≠ bsChar := by decide

theorem commonErrorsTable_values_ok :
    ∀ p ∈ commonErrorsTable, ∀ v ∈ p.2,
      v ≠ [] ∧ v ≠ [nlChar] ∧ v ≠ [tabChar] ∧ v ≠ [bsChar] := by decide

theorem commonErrorsTable_values_nonempty :
    ∀ p ∈ commonErrorsTable, p.2 ≠ [] := by decide

theorem generateTypingError_table_mem (c : Char) (r : ℚ)
    (errs : List (List Char)) (h : commonErrorLookup c = some errs)
    (h0 : 0 ≤ r) (h1 : r < 1) :
    generateTypingError c r ∈ errs := by
  have hne : errs ≠ [] := by
    obtain ⟨a, ha⟩ := assocLookup_mem [c] commonErrorsTable errs h
    exact commonErrorsTable_values_nonempty (a, errs) ha
  rw [generateTypingError, h]
  exact pickEntry_mem errs [] r h0 h1 hne

theorem getAdjacentKey_not_special (c : Char) (r : ℚ)
    (hc1 : c ≠ nlChar) (hc2 : c ≠ tabChar) (hc3 : c ≠ bsChar) :
    getAdjacentKey c r ≠ nlChar ∧ getAdjacentKey c r ≠ tabChar ∧
      getAdjacentKey c r ≠ bsChar := by
  rw [getAdjacentKey]
  cases hal : assocLookup c.toLower keyboardLayout with
  | none => exact ⟨hc1, hc2, hc3⟩
  | some adjacent =>
    simp only []
    split
    · by_cases hidx : (⌊r * (adjacent.length : ℚ)⌋).toNat < adjacent.length
      · have hm : adjacent.getD (⌊r * (adjacent.length : ℚ)⌋).toNat c ∈ adjacent := by
          rw [List.getD_eq_getElem adjacent c hidx]
          exact List.getElem_mem hidx
        obtain ⟨a, ha⟩ := assocLookup_mem c.toLower keyboardLayout adjacent hal
        exact keyboardLayout_no_special (a, adjacent) ha _ hm
      · rw [List.getD_eq_default adjacent c (by omega)]
        exact ⟨hc1, hc2, hc3⟩
    · exact ⟨hc1, hc2, hc3⟩

theorem generateTypingError_not_special (c : Char) (r : ℚ)
    (hc1 : c ≠ nlChar) (hc2 : c ≠ tabChar) (hc3 : c ≠ bsChar) :
    generateTypingError c r ≠ [nlChar] ∧ generateTypingError c r ≠ [tabChar] ∧
      generateTypingError c r ≠ [bsChar] := by
  rw [generateTypingError]
  cases hl : commonErrorLookup c with
  | none =>
    obtain ⟨h1, h2, h3⟩ := getAdjacentKey_not_special c r hc1 hc2 hc3
    refine ⟨by simp [h1], by simp [h2], by simp [h3]⟩
  | some errs =>
    simp only []
    by_cases hidx : (⌊r * (errs.length : ℚ)⌋).toNat < errs.length
    · have hm : errs.getD (⌊r * (errs.length : ℚ)⌋).toNat [] ∈ errs := by
        rw [List.getD_eq_getElem errs [] hidx]
        exact List.getElem_mem hidx
      obtain ⟨a, ha⟩ := assocLookup_mem [c] commonErrorsTable errs hl
      obtain ⟨_, hv1, hv2, hv3⟩ := commonErrorsTable_values_ok (a, errs) ha _ hm
      exact ⟨hv1, hv2, hv3⟩
    · rw [List.getD_eq_default errs [] (by omega)]
      refine ⟨by simp [nlChar], by simp [tabChar], by simp [bsChar]⟩

/-- Claim C5: for a step marked as an error, executeTypingError emits the
substitute character (a common-errors table entry for the character when
one exists, else the adjacent-key fallback) at the planned delay, then
waits a reaction delay drawn inside [correctionDelay.min,
correctionDelay.max], then taps backspace (followed by a fixed 50 to 150
ms draw), then emits the correct character at 0.8 times its planned
delay. -/
theorem c5_error_step_trace (item : CharStep) (cfg : TypingConfig)
    (rPick rReact rBs : ℚ)
    (hc : item.character ≠ nlChar ∧ item.character ≠ tabChar ∧ item.character ≠ bsChar)
    (hd : 0 < item.delay)
    (hcd : cfg.correctionDelay.min ≤ cfg.correctionDelay.max)
    (hrp : 0 ≤ rPick ∧ rPick < 1) (hrr : 0 ≤ rReact ∧ rReact < 1) :
    executeTypingError item cfg rPick rReact rBs =
      [TEvent.emitStr (generateTypingError item.character rPick),
       TEvent.wait (item.delay : ℚ),
       TEvent.wait ((randomDelay cfg.correctionDelay.min cfg.correctionDelay.max rReact : ℤ) : ℚ),
       TEvent.tapBackspace,
       TEvent.wait ((randomDelay 50 150 rBs : ℤ) : ℚ),
       TEvent.emitStr [item.character],
       TEvent.wait ((item.delay : ℚ) * (4 / 5))] ∧
    cfg.correctionDelay.min ≤ randomDelay cfg.correctionDelay.min cfg.correctionDelay.max rReact ∧
    randomDelay cfg.correctionDelay.min cfg.correctionDelay.max rReact ≤ cfg.correctionDelay.max ∧
    (∀ errs, commonErrorLookup item.character = some errs →
      generateTypingError item.character rPick ∈ errs) ∧
    (commonErrorLookup item.character = none →
      generateTypingError item.character rPick = [getAdjacentKey item.character rPick]) := by
  obtain ⟨hc1, hc2, hc3⟩ := hc
  obtain ⟨hs1, hs2, hs3⟩ := generateTypingError_not_special item.character rPick hc1 hc2 hc3
  have hdq : (0 : ℚ) < (item.delay : ℚ) := by exact_mod_cast hd
  have hdq2 : (0 : ℚ) < (item.delay : ℚ) * (4 / 5) := by nlinarith
  have hb := randomDelay_bounds cfg.correctionDelay.min cfg.correctionDelay.max rReact hcd hrr.1 hrr.2
  refine ⟨?_, hb.1, hb.2, ?_, ?_⟩
  · simp only [executeTypingError, typeCharacter, typeCharacterS]
    rw [if_neg hs1, if_neg hs2, if_neg hs3, if_pos hdq]
    rw [if_neg (by simp [hc1]), if_neg (by simp [hc2]), if_neg (by simp [hc3]),
      if_pos hdq2]
    rfl
  · intro errs h
    exact generateTypingError_table_mem item.character rPick errs h hrp.1 hrp.2
  · intro h
    rw [generateTypingError, h]

theorem c5_witness :
    (sampleErrorStep.character ≠ nlChar ∧ sampleErrorStep.character ≠ tabChar ∧
      sampleErrorStep.character ≠ bsChar) ∧
    0 < sampleErrorStep.delay ∧
    defaultTypingConfig.correctionDelay.min ≤ defaultTypingConfig.correctionDelay.max ∧
    ((0 : ℚ) ≤ 0 ∧ (0 : ℚ) < 1) ∧
    executeTypingError sampleErrorStep defaultTypingConfig 0 0 0 =
      [TEvent.emitStr (generateTypingError sampleErrorStep.character 0),
       TEvent.wait (sampleErrorStep.delay : ℚ),
       TEvent.wait ((randomDelay defaultTypingConfig.correctionDelay.min
          defaultTypingConfig.correctionDelay.max 0 : ℤ) : ℚ),
       TEvent.tapBackspace,
       TEvent.wait ((randomDelay 50 150 0 : ℤ) : ℚ),
       TEvent.emitStr [sampleErrorStep.character],
       TEvent.wait ((sampleErrorStep.delay : ℚ) * (4 / 5))] :=
  ⟨⟨by decide, by decide, by decide⟩, by decide, by decide,
   ⟨le_refl 0, by norm_num⟩,
   (c5_error_step_trace sampleErrorStep defaultTypingConfig 0 0 0
     ⟨by decide, by decide, by decide⟩ (by decide) (by decide)
     ⟨le_refl 0, by norm_num⟩ ⟨le_refl 0, by norm_num⟩).1⟩

/-- Claim C10: for a character with no common-errors entry and no
keyboard adjacency for its lowercase form (digits, punctuation, space),
generateTypingError returns the character itself, so the error execution
emits the correct character, then a backspace, then the correct character
again. -/
theorem c10_no_adjacency_identity (item : CharStep) (cfg : TypingConfig)
    (rPick rReact rBs : ℚ)
    (hce : commonErrorLookup item.character = none)
    (hadj : assocLookup item.character.toLower keyboardLayout = none)
    (hc1 : item.character ≠ nlChar) (hc2 : item.character ≠ tabChar)
    (hc3 : item.character ≠ bsChar) :
    generateTypingError item.character rPick = [item.character] ∧
    getAdjacentKey item.character rPick = item.character ∧
    keyEvents (executeTypingError item cfg rPick rReact rBs) =
      [TEvent.emitStr [item.character], TEvent.tapBackspace,
       TEvent.emitStr [item.character]] := by
  have hga : getAdjacentKey item.character rPick = item.character := by
    rw [getAdjacentKey, hadj]
  have hgte : generateTypingError item.character rPick = [item.character] := by
    rw [generateTypingError, hce, hga]
  refine ⟨hgte, hga, ?_⟩
  simp [keyEvents, executeTypingError, typeCharacter, typeCharacterS, hgte,
    isKeyEvent, List.filter_append, hc1, hc2, hc3,
    apply_ite (List.filter isKeyEvent)]

theorem c10_witness :
    commonErrorLookup digitStep.character = none ∧
    assocLookup digitStep.character.toLower keyboardLayout = none ∧
    digitStep.character ≠ nlChar ∧ digitStep.character ≠ tabChar ∧
    digitStep.character ≠ bsChar ∧
    (generateTypingError digitStep.character 0 = [digitStep.character] ∧
     getAdjacentKey digitStep.character 0 = digitStep.character ∧
     keyEvents (executeTypingError digitStep defaultTypingConfig 0 0 0) =
       [TEvent.emitStr [digitStep.character], TEvent.tapBackspace,
        TEvent.emitStr [digitStep.character]]) :=
  ⟨by decide, by decide, by decide, by decide, by decide,
   c10_no_adjacency_identity digitStep defaultTypingConfig 0 0 0
     (by decide) (by decide) (by decide) (by decide) (by decide)⟩
